import Mathlib

/-!
# Verification of the DeLand hash-chained ledger engine

Shallow embedding of the Go backend (`package main` served behind the Next.js
client): the ledger record type, the hash engine (`calculateHash`, SHA-256 of
the UTF-8 bytes of a string, hex-encoded), the append path
(`getLastHash`, `createEntry`, `addEntryHandler`) and the read path
(`verifyLedgerHandler`, `getPropertyHistoryHandler`).

Machine integers are modelled as `Nat`/`Int` with explicit reduction
modulo `2 ^ 32` (resp. `2 ^ 64`) where the Go code relies on word width.
The Mongo collection is modelled as a `List LedgerEntry` in insertion
order; the error outcome of a store operation is passed as an explicit
boolean flag where the Go code can receive a non-nil `err`.
-/

/-! ## Bytes and UTF-8 (Go `[]byte(string)` conversion) -/

/-- 32-bit word reduction. -/
def w32 (n : Nat) : Nat := n % 4294967296

/-- UTF-8 encoding of one Unicode scalar value, as byte values. -/
def utf8EncodeChar (c : Char) : List Nat :=
  let n := c.toNat
  if n < 128 then [n]
  else if n < 2048 then [192 ||| (n >>> 6), 128 ||| (n &&& 63)]
  else if n < 65536 then
    [224 ||| (n >>> 12), 128 ||| ((n >>> 6) &&& 63), 128 ||| (n &&& 63)]
  else
    [240 ||| (n >>> 18), 128 ||| ((n >>> 12) &&& 63),
     128 ||| ((n >>> 6) &&& 63), 128 ||| (n &&& 63)]

/-- The byte sequence of a string, Go's `[]byte(s)`. -/
def utf8Bytes (s : String) : List Nat := s.data.flatMap utf8EncodeChar

/-- Go's `string(rune(t))` for an `int64` value `t`: the `int64` is first
truncated to a 32-bit `rune`; converting an invalid code point (negative,
beyond `U+10FFFF`, or a surrogate) to a string yields `"�"`. -/
def goRuneString (t : Int) : String :=
  let r : Int := (t + 2147483648) % 4294967296 - 2147483648
  if 0 ≤ r ∧ r ≤ 1114111 ∧ ¬(55296 ≤ r ∧ r ≤ 57343) then
    String.mk [Char.ofNat r.toNat]
  else
    String.mk ['�']

/-! ## SHA-256 (Go `crypto/sha256.Sum256`) over byte lists -/

/-- Right rotation of a 32-bit word. -/
def rotr32 (s n : Nat) : Nat := w32 ((n >>> s) ||| (n <<< (32 - s)))

/-- SHA-256 round constants. -/
def sha256K : List Nat :=
  [1116352408, 1899447441, 3049323471, 3921009573, 961987163,
   1508970993, 2453635748, 2870763221, 3624381080, 310598401,
   607225278, 1426881987, 1925078388, 2162078206, 2614888103,
   3248222580, 3835390401, 4022224774, 264347078, 604807628,
   770255983, 1249150122, 1555081692, 1996064986, 2554220882,
   2821834349, 2952996808, 3210313671, 3336571891, 3584528711,
   113926993, 338241895, 666307205, 773529912, 1294757372,
   1396182291, 1695183700, 1986661051, 2177026350, 2456956037,
   2730485921, 2820302411, 3259730800, 3345764771, 3516065817,
   3600352804, 4094571909, 275423344, 430227734, 506948616,
   659060556, 883997877, 958139571, 1322822218, 1537002063,
   1747873779, 1955562222, 2024104815, 2227730452, 2361852424,
   2428436474, 2756734187, 3204031479, 3329325298]

/-- SHA-256 initial hash state. -/
def sha256H0 : List Nat :=
  [1779033703, 3144134277, 1013904242, 2773480762,
   1359893119, 2600822924, 528734635, 1541459225]

/-- Message-schedule extension: extend the 16 block words to 64. -/
def sha256Extend (w : List Nat) : List Nat :=
  (List.range 48).foldl
    (fun w i =>
      let t := i + 16
      let a := w.getD (t - 15) 0
      let b := w.getD (t - 2) 0
      let s0 := rotr32 7 a ^^^ rotr32 18 a ^^^ (a >>> 3)
      let s1 := rotr32 17 b ^^^ rotr32 19 b ^^^ (b >>> 10)
      w ++ [w32 (w.getD (t - 16) 0 + s0 + w.getD (t - 7) 0 + s1)])
    w

/-- One compression round over the eight-word working state. -/
def sha256Round (st : List Nat) (kw : Nat × Nat) : List Nat :=
  match st with
  | [a, b, c, d, e, f, g, h] =>
    let s1 := rotr32 6 e ^^^ rotr32 11 e ^^^ rotr32 25 e
    let ch := (e &&& f) ^^^ ((e ^^^ 4294967295) &&& g)
    let t1 := w32 (h + s1 + ch + kw.1 + kw.2)
    let s0 := rotr32 2 a ^^^ rotr32 13 a ^^^ rotr32 22 a
    let maj := (a &&& b) ^^^ (a &&& c) ^^^ (b &&& c)
    let t2 := w32 (s0 + maj)
    [w32 (t1 + t2), a, b, c, w32 (d + t1), e, f, g]
  | st => st

/-- Compress one 16-word block into the hash state. -/
def sha256Compress (h : List Nat) (block : List Nat) : List Nat :=
  let w := sha256Extend block
  let st := (sha256K.zip w).foldl sha256Round h
  List.zipWith (fun x y => w32 (x + y)) h st

/-- Big-endian packing of bytes into 32-bit words. -/
def bytesToWords : List Nat → List Nat
  | b0 :: b1 :: b2 :: b3 :: rest =>
    ((b0 <<< 24) ||| (b1 <<< 16) ||| (b2 <<< 8) ||| b3) :: bytesToWords rest
  | _ => []

/-- Fold the compression function over the 16-word blocks of the message. -/
def sha256Process (h : List Nat) : List Nat → List Nat
  | w0 :: w1 :: w2 :: w3 :: w4 :: w5 :: w6 :: w7 ::
    w8 :: w9 :: w10 :: w11 :: w12 :: w13 :: w14 :: w15 :: rest =>
    sha256Process
      (sha256Compress h [w0, w1, w2, w3, w4, w5, w6, w7,
                         w8, w9, w10, w11, w12, w13, w14, w15]) rest
  | _ => h

/-- The low `j` bytes of `n`, most significant first. -/
def beBytes : Nat → Nat → List Nat
  | 0, _ => []
  | j + 1, n => beBytes j (n >>> 8) ++ [n % 256]

/-- Big-endian bytes of a 64-bit quantity. -/
def be64Bytes (n : Nat) : List Nat := beBytes 8 n

/-- SHA-256 padding: `0x80`, zeros to 56 mod 64, then the bit length. -/
def sha256Pad (msg : List Nat) : List Nat :=
  msg ++ [128] ++ List.replicate ((119 - msg.length % 64) % 64) 0
      ++ be64Bytes (msg.length * 8)

/-- Big-endian bytes of a 32-bit word. -/
def be32Bytes (n : Nat) : List Nat := beBytes 4 n

/-- SHA-256 digest (32 bytes) of a byte list. -/
def sha256Bytes (msg : List Nat) : List Nat :=
  (sha256Process sha256H0 (bytesToWords (sha256Pad msg))).flatMap be32Bytes

/-- Lowercase hexadecimal digit: `0`-`9` then `a`-`f`. -/
def hexDigit (n : Nat) : Char :=
  if n < 10 then Char.ofNat (48 + n) else Char.ofNat (87 + n % 16)

/-- Lowercase hex string of a byte list, Go's `hex.EncodeToString`. -/
def hexOfBytes (bs : List Nat) : String :=
  String.mk (bs.flatMap (fun b => [hexDigit ((b >>> 4) % 16), hexDigit (b % 16)]))

/-- Go `calculateHash`: SHA-256 of the string's bytes, hex-encoded. -/
def calculateHash (data : String) : String :=
  hexOfBytes (sha256Bytes (utf8Bytes data))

/-! ## Data model -/

/-- Go `LedgerEntry` (the persisted record). `Timestamp` is an `int64`
Unix timestamp, modelled as `Int`. -/
structure LedgerEntry where
  id : String
  surveyNumber : String
  propertyNumber : String
  ownerID : String
  landType : String
  action : String
  details : String
  timestamp : Int
  prevHash : String
  hash : String
deriving DecidableEq

/-- Go `NewEntryPayload` (the parsed request body of `POST /add_entry`). -/
structure NewEntryPayload where
  surveyNumber : String
  propertyNumber : String
  ownerID : String
  landType : String
  action : String
  details : String
deriving DecidableEq

/-- The Mongo `entries` collection, in insertion order. -/
abbrev Store := List LedgerEntry

/-- `ledgerCollection.Find(ctx, bson.M(property_number: p))`:
the entries whose `property_number` field equals `p`. -/
def findByPropertyNumber (store : Store) (p : String) : List LedgerEntry :=
  store.filter (fun e => e.propertyNumber == p)

/-- `ledgerCollection.Find(ctx, bson.M(survey_number: s))`:
the entries whose `survey_number` field equals `s`. -/
def findBySurveyNumber (store : Store) (s : String) : List LedgerEntry :=
  store.filter (fun e => e.surveyNumber == s)

/-! ## Sorting (`sort.Slice` by `Timestamp`)

Every handler sorts the fetched entries with
`sort.Slice(xs, func(i, j int) bool { return xs[i].Timestamp < xs[j].Timestamp })`.
The comparator looks only at `Timestamp`; we model the sort as a stable
insertion sort, which matches Go's behaviour on the small slices used in
the theorems below (Go falls back to insertion sort on short ranges, and
on tied keys the output order follows the input order). -/

/-- Insert an entry into a timestamp-sorted list, before any entry with a
strictly larger timestamp and after entries with an equal one. -/
def insertTs (e : LedgerEntry) : List LedgerEntry → List LedgerEntry
  | [] => [e]
  | y :: ys => if e.timestamp ≤ y.timestamp then e :: y :: ys else y :: insertTs e ys

/-- Stable sort by `Timestamp` ascending. -/
def sortByTimestamp : List LedgerEntry → List LedgerEntry
  | [] => []
  | x :: xs => insertTs x (sortByTimestamp xs)

/-! ## Append path -/

/-- The hash of the last element of a timestamp-sorted chain, or the
sentinel for the empty chain (`getLastHash` returns
`entries[len(entries)-1].Hash` after sorting, and `"genesis"` when the
query errors or returns nothing). -/
def lastEntryHash : List LedgerEntry → String
  | [] => "genesis"
  | [e] => e.hash
  | _ :: e :: es => lastEntryHash (e :: es)

/-- Go `getLastHash(ctx, propertyNumber)`. The `findFails` flag models a
non-nil error from `ledgerCollection.Find` (store unreachable): the Go
code returns `"genesis"` in that case. -/
def getLastHash (store : Store) (findFails : Bool) (propertyNumber : String) : String :=
  if findFails then "genesis"
  else lastEntryHash (sortByTimestamp (findByPropertyNumber store propertyNumber))

/-- The `raw` string of `createEntry`:
`id + survey + property + owner + landType + action + details + string(rune(timestamp))`. -/
def rawOf (payload : NewEntryPayload) (timestamp : Int) (id : String) : String :=
  id ++ payload.surveyNumber ++ payload.propertyNumber ++ payload.ownerID ++
    payload.landType ++ payload.action ++ payload.details ++ goRuneString timestamp

/-- The `LedgerEntry` literal built inside `createEntry`, with
`Hash = calculateHash(raw + prevHash)`. -/
def mkEntry (payload : NewEntryPayload) (timestamp : Int) (id : String)
    (prevHash : String) : LedgerEntry :=
  { id := id
    surveyNumber := payload.surveyNumber
    propertyNumber := payload.propertyNumber
    ownerID := payload.ownerID
    landType := payload.landType
    action := payload.action
    details := payload.details
    timestamp := timestamp
    prevHash := prevHash
    hash := calculateHash (rawOf payload timestamp id ++ prevHash) }

/-- Go `createEntry(ctx, payload)`: resolve the previous hash for the
payload's `property_number`, build the entry, and insert it into the
collection. `timestamp` and `id` stand for `time.Now().Unix()` and
`uuid.New().String()`, which the caller of the model supplies. -/
def createEntry (store : Store) (findFails : Bool) (payload : NewEntryPayload)
    (timestamp : Int) (id : String) : LedgerEntry × Store :=
  let prevHash := getLastHash store findFails payload.propertyNumber
  let entry := mkEntry payload timestamp id prevHash
  (entry, store ++ [entry])

/-- Go `addEntryHandler`: `none` stands for a request body `BindJSON`
rejects (the handler answers 400 and leaves the store alone); for any
payload that parses, the handler calls `createEntry` unconditionally — it
performs no emptiness check on the fields. -/
def addEntryHandler (store : Store) (parsed : Option NewEntryPayload)
    (timestamp : Int) (id : String) : Option LedgerEntry × Store :=
  match parsed with
  | none => (none, store)
  | some payload =>
    let r := createEntry store false payload timestamp id
    (some r.1, r.2)

/-! ## Verify path -/

/-- The recomputed hash input of `verifyLedgerHandler`:
`curr.ID + curr.SurveyNumber + ... + curr.Details + string(rune(curr.Timestamp)) + curr.PrevHash`. -/
def entryHashInput (e : LedgerEntry) : String :=
  e.id ++ e.surveyNumber ++ e.propertyNumber ++ e.ownerID ++ e.landType ++
    e.action ++ e.details ++ goRuneString e.timestamp ++ e.prevHash

/-- The verification loop of `verifyLedgerHandler` over the sorted chain:
for each adjacent pair `(prev, curr)` check `curr.PrevHash == prev.Hash`
and `curr.Hash == calculateHash(...recomputed over curr...)`, stopping at
the first failure. -/
def chainCheck : List LedgerEntry → Bool
  | [] => true
  | [_] => true
  | prev :: curr :: rest =>
    if curr.prevHash == prev.hash
        && curr.hash == calculateHash (entryHashInput curr) then
      chainCheck (curr :: rest)
    else
      false

/-- The `valid` boolean computed by Go `verifyLedgerHandler(land_id)`:
fetch by `survey_number`, sort by timestamp, run the pairwise check. -/
def verifyLedgerValid (store : Store) (landID : String) : Bool :=
  chainCheck (sortByTimestamp (findBySurveyNumber store landID))

/-- A value in the handler's JSON response object. -/
inductive GinValue where
  | str (s : String)
  | bool (b : Bool)
deriving DecidableEq

/-- The JSON object `verifyLedgerHandler` answers with:
`gin.H(land_id: landID, valid: valid)` — these two keys and no others. -/
def verifyLedgerResponse (store : Store) (landID : String) : List (String × GinValue) :=
  [("land_id", GinValue.str landID), ("valid", GinValue.bool (verifyLedgerValid store landID))]

/-! ## Executions -/

/-- Strictly sequential appends: run `createEntry` (success path) for each
`(payload, timestamp, id)` triple in order, threading the store. -/
def appendAll (store : Store) : List (NewEntryPayload × Int × String) → Store
  | [] => store
  | (p, t, id) :: rest => appendAll (createEntry store false p t id).2 rest

/-- One interleaved execution of two concurrent `createEntry` calls in
which both reads of the chain tail (`getLastHash`) happen before either
insert. Each half is verbatim the read phase and the write phase of
`createEntry`; nothing in the Go code prevents this schedule, since the
read-compute-insert sequence is not atomic. -/
def interleavedPairAppend (store : Store) (p1 p2 : NewEntryPayload)
    (t1 t2 : Int) (id1 id2 : String) : Store :=
  let prev1 := getLastHash store false p1.propertyNumber
  let prev2 := getLastHash store false p2.propertyNumber
  (store ++ [mkEntry p1 t1 id1 prev1]) ++ [mkEntry p2 t2 id2 prev2]

/-! ## Derived forms used to state the theorems -/

/-- The hash of the last entry of `l`, and `h` when `l` is empty. -/
def chainTailHash (h : String) : List LedgerEntry → String
  | [] => h
  | e :: rest => chainTailHash e.hash rest

/-- The entries that a run of sequential appends produces, each linked to
the hash of its predecessor (the first to `prevHash`). -/
def buildChain (prevHash : String) : List (NewEntryPayload × Int × String) → List LedgerEntry
  | [] => []
  | (p, t, id) :: rest =>
    let e := mkEntry p t id prevHash
    e :: buildChain e.hash rest

/-- A list of entries forms an unbroken hash chain starting from `h`:
each entry's `prevHash` is its predecessor's `hash` (the first one's is
`h`) and each entry's `hash` is the hash engine's output on that entry. -/
def wellChained (h : String) : List LedgerEntry → Prop
  | [] => True
  | e :: rest =>
    e.prevHash = h ∧ e.hash = calculateHash (entryHashInput e) ∧ wellChained e.hash rest

/-! ## Concrete fixtures -/

/-- A stored record whose chain key for appends (`property_number`) is
`"PR-1"` but whose verification grouping key (`survey_number`) is `"SY-1"`. -/
def c1Entry : LedgerEntry :=
  ⟨"id-1", "SY-1", "PR-1", "OWN-1", "Agricultural", "AwardDeclared", "d",
   1700000000, "genesis", "h1"⟩

/-- Fixture for the encoding claim. -/
def c2A : LedgerEntry :=
  ⟨"id-2", "SY-2", "PR-2", "OWN-2", "Agricultural", "Other", "d",
   1700000000, "genesis", "h2"⟩

/-- `c2A` with a different timestamp and nothing else changed. -/
def c2B : LedgerEntry := { c2A with timestamp := 1700000001 }

/-- Two distinct field tuples whose concatenation coincides: one character
moved from the end of `ownerID` to the front of `landType`. -/
def c2P1 : NewEntryPayload :=
  ⟨"SY-2", "PR-2", "OWN-2A", "gricultural", "Other", "d"⟩

/-- See `c2P1`. -/
def c2P2 : NewEntryPayload :=
  ⟨"SY-2", "PR-2", "OWN-2", "Agricultural", "Other", "d"⟩

/-- First append of the mutation fixture (chain key `"PR-3"`). -/
def c3P1 : NewEntryPayload :=
  ⟨"PR-3", "PR-3", "OWN-3", "Agricultural", "AwardDeclared", "d1"⟩

/-- Second append of the mutation fixture. -/
def c3P2 : NewEntryPayload :=
  ⟨"PR-3", "PR-3", "OWN-3", "Agricultural", "OwnershipUpdated", "d2"⟩

/-- The first persisted record of the mutation fixture. -/
def c3E1 : LedgerEntry := mkEntry c3P1 1700000000 "id-1" "genesis"

/-- The second persisted record of the mutation fixture. -/
def c3E2 : LedgerEntry := mkEntry c3P2 1700000001 "id-2" c3E1.hash

/-- `c3E2` with its `timestamp` field mutated in the store and its stored
`hash` (and every other field) left unchanged. -/
def c3E2m : LedgerEntry := { c3E2 with timestamp := 1700000002 }

/-- Payload used by the concurrency fixture. -/
def c5Payload : NewEntryPayload :=
  ⟨"SY-5", "PR-5", "OWN-5", "Agricultural", "AwardDeclared", "d5"⟩

/-- A payload whose required fields are all empty. -/
def emptyPayload : NewEntryPayload := ⟨"", "", "", "", "", ""⟩

/-- Existing tail of a nonempty chain under property number `"PR-8"`. -/
def c8Tail : LedgerEntry :=
  ⟨"id-1", "SY-8", "PR-8", "OWN-8", "Agricultural", "AwardDeclared", "d",
   1700000000, "genesis", "aa11"⟩

/-- Payload appended to `"PR-8"` while the store's find operation fails. -/
def c8Payload : NewEntryPayload :=
  ⟨"SY-8", "PR-8", "OWN-8", "Agricultural", "OwnershipUpdated", "d2"⟩

/-- First record of the tied-timestamp fixture. Its own `hash` field is
never recomputed by the verifier, so it may be arbitrary. -/
def c9A : LedgerEntry :=
  ⟨"id-a", "SY-9", "PR-9", "OWN-9", "Agricultural", "Other", "da",
   1700000000, "genesis", "h1"⟩

/-- Second record of the tied-timestamp fixture: same timestamp as `c9A`,
linked to it, and carrying a correctly computed digest. -/
def c9B : LedgerEntry :=
  ⟨"id-b", "SY-9", "PR-9", "OWN-9", "Agricultural", "Other", "db",
   1700000000, "h1",
   calculateHash ("id-b" ++ "SY-9" ++ "PR-9" ++ "OWN-9" ++ "Agricultural" ++
     "Other" ++ "db" ++ goRuneString 1700000000 ++ "h1")⟩

/-- A stored record under survey number `"SY-7"`, giving the response
claim a nonempty record group to exercise. -/
def c7Entry : LedgerEntry :=
  ⟨"id-7", "SY-7", "PR-7", "OWN-7", "Agricultural", "Other", "d7",
   1700000000, "genesis", "h7"⟩

/-- A single-record chain whose `prevHash` is not the sentinel. -/
def c10Entry : LedgerEntry :=
  ⟨"id-1", "SY-10", "PR-10", "OWN-10", "Agricultural", "Other", "d",
   1700000000, "whatever", "h1"⟩

/-- Appends used by the end-to-end witness of the sequential-append claim:
three records on chain key `"PR-001"` with the actions of the spec's
end-to-end example. -/
def c4Inputs : List (NewEntryPayload × Int × String) :=
  [(⟨"PR-001", "PR-001", "OWN-001", "Agricultural", "AwardDeclared", "d1"⟩,
     1700000000, "id-1"),
   (⟨"PR-001", "PR-001", "OWN-001", "Agricultural", "OwnershipUpdated", "d2"⟩,
     1700000001, "id-2"),
   (⟨"PR-001", "PR-001", "OWN-001", "Agricultural", "Compensated", "d3"⟩,
     1700000002, "id-3")]


/-! ## Claims -/

/-- C1: the claimed single chain key fails on the code: `getLastHash`
(the group the append extends) selects records by `property_number`
while `verifyLedgerHandler` fetches records by `survey_number`, so at the
same key the two operations see different groups. At the concrete store
`[c1Entry]` and key `"PR-1"`, append extends the chain ending in
`c1Entry` while verify fetches no records at all. -/
theorem c1_chain_key_mismatch :
    findByPropertyNumber [c1Entry] "PR-1" ≠ findBySurveyNumber [c1Entry] "PR-1" ∧
    getLastHash [c1Entry] false "PR-1" = c1Entry.hash ∧
    findBySurveyNumber [c1Entry] "PR-1" = [] := by
  decide

/-- C2: the canonical encoding fed to the hash is not injective.
`c2A` and `c2B` differ only in their (distinct) timestamps, yet the
concatenated hash input — and hence its byte sequence — is identical,
because `string(rune(t))` collapses every timestamp beyond the valid
code-point range to the replacement character. Likewise `c2P1` and
`c2P2` are distinct field tuples (a character moved between `ownerID`
and `landType`) with the same undelimited concatenation. -/
theorem c2_encoding_not_injective :
    (c2A.timestamp ≠ c2B.timestamp ∧
      entryHashInput c2A = entryHashInput c2B ∧
      utf8Bytes (entryHashInput c2A) = utf8Bytes (entryHashInput c2B)) ∧
    (c2P1 ≠ c2P2 ∧ rawOf c2P1 1700000000 "id-2" = rawOf c2P2 1700000000 "id-2") := by
  decide

/-- C5: appends are not linearized. In the interleaved execution of two
concurrent `createEntry` calls on chain key `"PR-5"` where both tail
reads precede both inserts, the two persisted records share the
`previousDigest` value `"genesis"` — the chain is forked. -/
theorem c5_concurrent_append_forks :
    (interleavedPairAppend [] c5Payload c5Payload 1700000000 1700000000
        "id-a" "id-b").length = 2 ∧
    (interleavedPairAppend [] c5Payload c5Payload 1700000000 1700000000
        "id-a" "id-b").map (fun e => e.prevHash) = ["genesis", "genesis"] := by
  decide

/-- C6: `addEntryHandler` performs no emptiness validation: a payload
whose required fields are all empty strings binds successfully and is
persisted — the store grows by one record (with empty `survey_number`)
instead of staying unchanged under a `ValidationError`. -/
theorem c6_empty_fields_persisted :
    emptyPayload.surveyNumber = "" ∧ emptyPayload.propertyNumber = "" ∧
    emptyPayload.ownerID = "" ∧ emptyPayload.details = "" ∧
    (addEntryHandler [] (some emptyPayload) 1700000000 "id-1").2.length = 1 ∧
    (addEntryHandler [] (some emptyPayload) 1700000000 "id-1").2.map
      (fun e => e.surveyNumber) = [""] := by
  decide

/-- C8: a store failure while resolving the tail digest does not make the
append fail: `getLastHash` swallows the find error and returns the
sentinel, so `createEntry` proceeds and persists a record with
`prevHash = "genesis"` even though the chain for `"PR-8"` already has a
tail (whose hash is `"aa11"`), forking the chain. -/
theorem c8_find_error_swallowed :
    getLastHash [c8Tail] false "PR-8" = "aa11" ∧
    (createEntry [c8Tail] true c8Payload 1700000001 "id-2").1.prevHash = "genesis" ∧
    (createEntry [c8Tail] true c8Payload 1700000001 "id-2").2.length = 2 ∧
    (createEntry [c8Tail] true c8Payload 1700000001 "id-2").2.map
      (fun e => e.prevHash) = ["genesis", "genesis"] := by
  decide

/-- C7, counterexample: the verify response carries no `count` key at
all; for the unknown chain key `"does-not-exist"` on the empty store it
is exactly `land_id` and `valid = true`. -/
theorem c7_no_count_in_response :
    (verifyLedgerResponse [] "does-not-exist").lookup "count" = none ∧
    verifyLedgerResponse [] "does-not-exist" =
      [("land_id", GinValue.str "does-not-exist"), ("valid", GinValue.bool true)] := by
  decide

set_option maxRecDepth 100000 in
/-- C3: mutating a stored record's `timestamp` (keeping its digest and
every other record unchanged) is NOT detected: the chain `[c3E1, c3E2]`
was built by two sequential appends on chain key `"PR-3"` and verifies;
after mutating the second record's timestamp in place, verify still
returns `valid = true`, because `string(rune(timestamp))` maps both
timestamps to the same replacement character, so the recomputed digest
is unchanged. -/
theorem c3_timestamp_mutation_undetected :
    appendAll [] [(c3P1, 1700000000, "id-1"), (c3P2, 1700000001, "id-2")] =
      [c3E1, c3E2] ∧
    verifyLedgerValid [c3E1, c3E2] "PR-3" = true ∧
    c3E2m.timestamp ≠ c3E2.timestamp ∧
    c3E2m.hash = c3E2.hash ∧ c3E2m.id = c3E2.id ∧
    c3E2m.details = c3E2.details ∧ c3E2m.prevHash = c3E2.prevHash ∧
    verifyLedgerValid [c3E1, c3E2m] "PR-3" = true := by
  decide

set_option maxRecDepth 100000 in
/-- C9: verify is not deterministic on an unmodified chain. `c9A` and
`c9B` have equal timestamps, so the comparator given to `sort.Slice`
never distinguishes them and the verification order follows the order in
which the store returned the records: the same two-record chain verifies
as `valid = true` when returned as `[c9A, c9B]` and as `valid = false`
when returned as `[c9B, c9A]` — no tie-break by id exists in the code. -/
theorem c9_verify_order_dependent :
    c9A.timestamp = c9B.timestamp ∧
    verifyLedgerValid [c9A, c9B] "SY-9" = true ∧
    verifyLedgerValid [c9B, c9A] "SY-9" = false := by
  decide

/-- C10: the verifier never inspects the first record's `prevHash`: the
pairwise loop starts at the second record and reads only the first
record's `hash`. Replacing the earliest-sorted record's `prevHash` by an
arbitrary value (in particular by `"genesis"`) leaves the verdict
unchanged, and every single-record chain passes the check whatever its
`prevHash` is. -/
theorem c10_first_prev_hash_ignored :
    (∀ (store : Store) (k v : String) (r : LedgerEntry) (rest : List LedgerEntry),
        sortByTimestamp (findBySurveyNumber store k) = r :: rest →
        chainCheck ({ r with prevHash := v } :: rest) = verifyLedgerValid store k) ∧
    (∀ r : LedgerEntry, chainCheck [r] = true) := by
  constructor
  · intro store k v r rest h
    unfold verifyLedgerValid
    rw [h]
    cases rest with
    | nil => rfl
    | cons r2 rest2 => rfl
  · intro r
    rfl

/-- Closed instance of `c10_first_prev_hash_ignored`: the single-record
chain `[c10Entry]` (whose `prevHash` is `"whatever"`) verifies, and
replacing its `prevHash` by anything leaves the verdict unchanged. -/
theorem c10_witness :
    chainCheck [{ c10Entry with prevHash := "not-genesis" }] =
      verifyLedgerValid [c10Entry] "SY-10" ∧
    chainCheck [c10Entry] = true :=
  ⟨c10_first_prev_hash_ignored.1 [c10Entry] "SY-10" "not-genesis" c10Entry []
      (by decide),
   c10_first_prev_hash_ignored.2 c10Entry⟩

/-! ### Supporting lemmas for the sequential-append theorem -/

theorem chainTailHash_append (h : String) (l : List LedgerEntry) (e : LedgerEntry) :
    chainTailHash h (l ++ [e]) = e.hash := by
  induction l generalizing h with
  | nil => rfl
  | cons x xs ih => simpa [chainTailHash] using ih x.hash

theorem lastEntryHash_cons (e : LedgerEntry) (es : List LedgerEntry) :
    lastEntryHash (e :: es) = chainTailHash e.hash es := by
  induction es generalizing e with
  | nil => rfl
  | cons e2 es2 ih => simpa [lastEntryHash, chainTailHash] using ih e2

theorem lastEntryHash_eq_chainTailHash (l : List LedgerEntry) :
    lastEntryHash l = chainTailHash "genesis" l := by
  cases l with
  | nil => rfl
  | cons e es => simpa [chainTailHash] using lastEntryHash_cons e es

theorem sortByTimestamp_of_sorted (l : List LedgerEntry)
    (h : List.Chain' (fun a b => a.timestamp ≤ b.timestamp) l) :
    sortByTimestamp l = l := by
  induction l with
  | nil => rfl
  | cons x xs ih =>
    rw [sortByTimestamp, ih h.tail]
    cases xs with
    | nil => rfl
    | cons y ys =>
      have hxy : x.timestamp ≤ y.timestamp := (List.chain'_cons.mp h).1
      simp [insertTs, hxy]

theorem findByPropertyNumber_append_chain (k : String) (store₀ chain : Store)
    (h0 : ∀ e ∈ store₀, e.propertyNumber ≠ k)
    (h1 : ∀ e ∈ chain, e.propertyNumber = k) :
    findByPropertyNumber (store₀ ++ chain) k = chain := by
  unfold findByPropertyNumber
  rw [List.filter_append]
  have e0 : store₀.filter (fun e => e.propertyNumber == k) = [] := by
    rw [List.filter_eq_nil_iff]
    intro a ha
    simp [h0 a ha]
  have e1 : chain.filter (fun e => e.propertyNumber == k) = chain := by
    apply List.filter_eq_self.mpr
    intro a ha
    simp [h1 a ha]
  rw [e0, e1, List.nil_append]

theorem findBySurveyNumber_append_chain (k : String) (store₀ chain : Store)
    (h0 : ∀ e ∈ store₀, e.surveyNumber ≠ k)
    (h1 : ∀ e ∈ chain, e.surveyNumber = k) :
    findBySurveyNumber (store₀ ++ chain) k = chain := by
  unfold findBySurveyNumber
  rw [List.filter_append]
  have e0 : store₀.filter (fun e => e.surveyNumber == k) = [] := by
    rw [List.filter_eq_nil_iff]
    intro a ha
    simp [h0 a ha]
  have e1 : chain.filter (fun e => e.surveyNumber == k) = chain := by
    apply List.filter_eq_self.mpr
    intro a ha
    simp [h1 a ha]
  rw [e0, e1, List.nil_append]

theorem getLastHash_append_chain (k : String) (store₀ chain : Store)
    (h0 : ∀ e ∈ store₀, e.propertyNumber ≠ k)
    (h1 : ∀ e ∈ chain, e.propertyNumber = k)
    (hsorted : List.Chain' (fun a b => a.timestamp ≤ b.timestamp) chain) :
    getLastHash (store₀ ++ chain) false k = chainTailHash "genesis" chain := by
  unfold getLastHash
  rw [if_neg (by simp), findByPropertyNumber_append_chain k store₀ chain h0 h1,
    sortByTimestamp_of_sorted chain hsorted, lastEntryHash_eq_chainTailHash]

theorem wellChained_chainCheck :
    ∀ (l : List LedgerEntry) (h : String), wellChained h l → chainCheck l = true := by
  intro l
  induction l with
  | nil => intro h _; rfl
  | cons e rest ih =>
    intro h hw
    cases rest with
    | nil => rfl
    | cons e2 rest2 =>
      obtain ⟨_, _, h21, h22, h23⟩ := hw
      have hc : (e2.prevHash == e.hash
          && e2.hash == calculateHash (entryHashInput e2)) = true := by
        rw [h21, h22]; simp
      rw [chainCheck, hc]
      simpa using ih e.hash ⟨h21, h22, h23⟩

theorem buildChain_wellChained :
    ∀ (inputs : List (NewEntryPayload × Int × String)) (h : String),
    wellChained h (buildChain h inputs) := by
  intro inputs
  induction inputs with
  | nil => intro h; trivial
  | cons i rest ih =>
    intro h
    obtain ⟨p, t, id⟩ := i
    exact ⟨rfl, rfl, ih _⟩

theorem buildChain_map_timestamp :
    ∀ (inputs : List (NewEntryPayload × Int × String)) (h : String),
    (buildChain h inputs).map LedgerEntry.timestamp = inputs.map (fun i => i.2.1) := by
  intro inputs
  induction inputs with
  | nil => intro h; rfl
  | cons i rest ih =>
    intro h
    obtain ⟨p, t, id⟩ := i
    simpa [buildChain, mkEntry] using ih _

theorem buildChain_surveyNumber (k : String) :
    ∀ (inputs : List (NewEntryPayload × Int × String)) (h : String),
    (∀ i ∈ inputs, i.1.surveyNumber = k) →
    ∀ e ∈ buildChain h inputs, e.surveyNumber = k := by
  intro inputs
  induction inputs with
  | nil => intro h _ e he; simp [buildChain] at he
  | cons i rest ih =>
    intro h hk e he
    obtain ⟨p, t, id⟩ := i
    rcases List.mem_cons.mp he with heq | hmem
    · rw [heq]
      exact hk (p, t, id) (List.mem_cons_self _ _)
    · exact ih _ (fun j hj => hk j (List.mem_cons_of_mem _ hj)) e hmem

theorem appendAll_eq_buildChain (k : String) (store₀ : Store) :
    ∀ (inputs : List (NewEntryPayload × Int × String)) (chain : Store),
    (∀ e ∈ store₀, e.propertyNumber ≠ k) →
    (∀ e ∈ chain, e.propertyNumber = k) →
    (∀ i ∈ inputs, i.1.propertyNumber = k) →
    List.Chain' (· < ·)
      (chain.map LedgerEntry.timestamp ++ inputs.map (fun i => i.2.1)) →
    appendAll (store₀ ++ chain) inputs =
      store₀ ++ chain ++ buildChain (chainTailHash "genesis" chain) inputs := by
  intro inputs
  induction inputs with
  | nil =>
    intro chain _ _ _ _
    simp [appendAll, buildChain]
  | cons i rest ih =>
    intro chain hstore hchain hinp hts
    obtain ⟨p, t, id⟩ := i
    have hpk : p.propertyNumber = k := hinp (p, t, id) (List.mem_cons_self _ _)
    have hchainSorted :
        List.Chain' (fun a b : LedgerEntry => a.timestamp ≤ b.timestamp) chain := by
      have h1 := hts.left_of_append
      exact ((List.chain'_map _).mp h1).imp (fun a b hab => le_of_lt hab)
    have hglh : getLastHash (store₀ ++ chain) false p.propertyNumber
        = chainTailHash "genesis" chain := by
      rw [hpk]
      exact getLastHash_append_chain k store₀ chain hstore hchain hchainSorted
    have hstep : (createEntry (store₀ ++ chain) false p t id).2
        = store₀ ++ (chain ++ [mkEntry p t id (chainTailHash "genesis" chain)]) := by
      simp [createEntry, hglh]
    have hchain' : ∀ e ∈ chain ++ [mkEntry p t id (chainTailHash "genesis" chain)],
        e.propertyNumber = k := by
      intro e he
      rcases List.mem_append.mp he with hmem | hmem
      · exact hchain e hmem
      · rw [List.mem_singleton.mp hmem]
        exact hpk
    have hts' : List.Chain' (· < ·)
        ((chain ++ [mkEntry p t id (chainTailHash "genesis" chain)]).map
            LedgerEntry.timestamp
          ++ rest.map (fun i => i.2.1)) := by
      simpa [mkEntry, List.append_assoc] using hts
    have hrec := ih (chain ++ [mkEntry p t id (chainTailHash "genesis" chain)])
      hstore hchain' (fun j hj => hinp j (List.mem_cons_of_mem _ hj)) hts'
    rw [appendAll, hstep, hrec, chainTailHash_append]
    simp [buildChain, List.append_assoc]

/-- C4: strictly sequential appends with one chain key `k` — the
payloads carry `k` both as `property_number` (the key `createEntry`
chains by) and as `survey_number` (the key `verifyLedgerHandler` groups
by) — starting from a store with no records under `k`, produce a store
on which verify returns `valid = true`; and the first appended record's
`previousDigest` is the sentinel `"genesis"`. -/
theorem c4_sequential_appends_valid (k : String) (store₀ : Store)
    (inputs : List (NewEntryPayload × Int × String))
    (hstoreP : ∀ e ∈ store₀, e.propertyNumber ≠ k)
    (hstoreS : ∀ e ∈ store₀, e.surveyNumber ≠ k)
    (hP : ∀ i ∈ inputs, i.1.propertyNumber = k)
    (hS : ∀ i ∈ inputs, i.1.surveyNumber = k)
    (hts : List.Chain' (· < ·) (inputs.map (fun i => i.2.1))) :
    verifyLedgerValid (appendAll store₀ inputs) k = true ∧
    ∀ e es, appendAll store₀ inputs = store₀ ++ e :: es → e.prevHash = "genesis" := by
  have hmain : appendAll store₀ inputs = store₀ ++ buildChain "genesis" inputs := by
    have h := appendAll_eq_buildChain k store₀ inputs [] hstoreP (by simp) hP
      (by simpa using hts)
    simpa [chainTailHash] using h
  constructor
  · rw [hmain]
    unfold verifyLedgerValid
    rw [findBySurveyNumber_append_chain k store₀ (buildChain "genesis" inputs) hstoreS
      (buildChain_surveyNumber k inputs "genesis" hS)]
    have hsorted : sortByTimestamp (buildChain "genesis" inputs)
        = buildChain "genesis" inputs := by
      apply sortByTimestamp_of_sorted
      have h1 : List.Chain' (· < ·)
          ((buildChain "genesis" inputs).map LedgerEntry.timestamp) := by
        rw [buildChain_map_timestamp]
        exact hts
      exact ((List.chain'_map _).mp h1).imp (fun a b hab => le_of_lt hab)
    rw [hsorted]
    exact wellChained_chainCheck _ "genesis" (buildChain_wellChained inputs "genesis")
  · intro e es heq
    rw [hmain] at heq
    have hb : buildChain "genesis" inputs = e :: es := List.append_cancel_left heq
    cases inputs with
    | nil => simp [buildChain] at hb
    | cons i rest =>
      obtain ⟨p, t, id⟩ := i
      rw [buildChain] at hb
      injection hb with h1 _
      rw [← h1]
      rfl

/-- Closed instance of `c4_sequential_appends_valid`: the spec's
end-to-end example — three sequential appends on chain key `"PR-001"`
with actions AwardDeclared, OwnershipUpdated, Compensated — verifies. -/
theorem c4_witness :
    verifyLedgerValid (appendAll [] c4Inputs) "PR-001" = true :=
  (c4_sequential_appends_valid "PR-001" [] c4Inputs (by simp) (by simp)
    (by decide) (by decide) (by simp [c4Inputs, List.chain'_cons])).1

/-- C7, amended: every verify response — for any store and any chain
key, empty or not — consists of exactly the two pairs `land_id = k` and
`valid` (the boolean chain verdict) and carries no `count` key; and for
a chain key whose record group is empty the verdict is `valid = true`. -/
theorem c7_response_is_land_id_and_valid :
    (∀ (store : Store) (k : String),
      verifyLedgerResponse store k =
        [("land_id", GinValue.str k),
         ("valid", GinValue.bool (verifyLedgerValid store k))] ∧
      (verifyLedgerResponse store k).lookup "count" = none) ∧
    (∀ (store : Store) (k : String),
      findBySurveyNumber store k = [] → verifyLedgerValid store k = true) := by
  constructor
  · intro store k
    exact ⟨rfl, rfl⟩
  · intro store k h
    unfold verifyLedgerValid
    rw [h]
    rfl

/-- Closed instance of `c7_response_is_land_id_and_valid`: the response
shape and the absence of a `count` key at the nonempty record group of
`"SY-7"`, and the `valid = true` verdict at the unknown chain key
`"does-not-exist"` on the empty store. -/
theorem c7_witness :
    (verifyLedgerResponse [c7Entry] "SY-7" =
        [("land_id", GinValue.str "SY-7"),
         ("valid", GinValue.bool (verifyLedgerValid [c7Entry] "SY-7"))] ∧
      (verifyLedgerResponse [c7Entry] "SY-7").lookup "count" = none) ∧
    verifyLedgerValid [] "does-not-exist" = true :=
  ⟨c7_response_is_land_id_and_valid.1 [c7Entry] "SY-7",
   c7_response_is_land_id_and_valid.2 [] "does-not-exist" rfl⟩
